import Mathlib

/-!
Verification of the fwtool.py firmware unpack/repack driver against its
natural-language specification.

The development shallowly embeds `src/fwtool.py`.  Byte streams are modelled
as `List Nat`; the collaborator modules (`fwtool.archive`, `fwtool.pe`,
`fwtool.zip`, `fwtool.sony.*`) are not part of the repository source, so the
parts of them that claims depend on are either taken as abstract function
parameters or modelled from the specification (each such definition says so
in its doc comment).
-/

namespace Fwtool

/-- Byte streams: sequences of byte values. -/
abbrev Bytes := List Nat

/-- Embedding of `stat.S_IFREG` (regular-file type bits). -/
def S_IFREG : Nat := 0o100000

/-- Embedding of `stat.S_IFDIR` (directory type bits). -/
def S_IFDIR : Nat := 0o040000

/-- Embedding of `stat.S_IFMT` (file-type bit mask). -/
def S_IFMT : Nat := 0o170000

/-- Embedding of `stat.S_ISREG`: the mode's file-type bits denote a regular file. -/
def S_ISREG (mode : Nat) : Bool := mode &&& S_IFMT == S_IFREG

/-- Embedding of `stat.S_ISDIR`: the mode's file-type bits denote a directory. -/
def S_ISDIR (mode : Nat) : Bool := mode &&& S_IFMT == S_IFDIR

/-- Embedding of `fwtool.archive.UnixFile`: the uniform virtual-file record. -/
structure UnixFile where
  path : String
  size : Int
  mtime : Nat
  mode : Nat
  uid : Nat
  gid : Nat
  contents : Bytes
deriving DecidableEq

/-- Embedding of `toUnixFile` (fwtool.py line 50): wraps a contents stream in a
regular-file `UnixFile` with mode `S_IFREG | 0o775`, size `-1`, uid 0, gid 0,
and `mtime` defaulting to 0. -/
def toUnixFile (path : String) (file : Bytes) (mtime : Nat := 0) : UnixFile :=
  { path := path
    size := -1
    mtime := mtime
    mode := S_IFREG ||| 0o775
    uid := 0
    gid := 0
    contents := file }

/-! ## FDAT crypto layer

The module `fwtool.sony.fdat` is not part of the repository source.  Its
decrypt/encrypt interface is modelled from the specification (§4.3): a closed
registry of named schemes, trial decryption in fixed priority order, and a
fixed marker placed by the encoder at a known offset (offset 0) of the
plaintext frame whose successful check selects the scheme. -/

/-- Modelled from the spec: the closed, versioned registry of named crypter
schemes (`fdat` module global table), each with its keystream byte.  The
concrete per-scheme transforms are unspecified by the spec (§9 open question);
a byte-wise xor keystream with pairwise distinct keys realises them. -/
def fdatCrypters : List (String × Nat) :=
  [("scheme-A", 0x9E), ("scheme-B", 0x3D), ("scheme-C", 0x61)]

/-- Modelled from the spec: one scheme's symmetric byte transform (xor with the
scheme key), its own inverse. -/
def cryptBytes (key : Nat) (data : Bytes) : Bytes :=
  data.map (fun b => b ^^^ key)

/-- Modelled from the spec: `fdat.encryptFdat(stream, crypterId)`.  Frames the
plaintext with the fixed self-check marker `0` at offset 0, then applies the
named scheme's forward transform; errors with `UnknownCrypterError` when the
identifier is not registered. -/
def encryptFdat (plain : Bytes) (crypterName : String) : Except String Bytes :=
  match fdatCrypters.lookup crypterName with
  | some key => .ok (cryptBytes key (0 :: plain))
  | none => .error "UnknownCrypterError"

/-- Modelled from the spec: the trial-decryption loop of `fdat.decryptFdat` —
try each registered scheme in priority order and accept the first whose
decrypted probe carries the marker `0` at offset 0. -/
def tryCrypters : List (String × Nat) → Bytes → Except String (String × Bytes)
  | [], _ => .error "UnknownCrypterError"
  | (name, key) :: rest, cipher =>
    let d := cryptBytes key cipher
    if d.head? = some 0 then .ok (name, d.tail) else tryCrypters rest cipher

/-- Modelled from the spec: `fdat.decryptFdat(stream)` returns the accepted
scheme's identifier together with the plaintext; errors with
`UnknownCrypterError` when no registered scheme validates. -/
def decryptFdat (cipher : Bytes) : Except String (String × Bytes) :=
  tryCrypters fdatCrypters cipher

/-! ## DAT / FDAT records and the unpack driver -/

/-- Modelled from the spec (§3): the record returned by `dat.readDat`. -/
structure DatFile where
  normalUsbDescriptors : List (Nat × Nat)
  updaterUsbDescriptors : List (Nat × Nat)
  isLens : Bool
  firmwareData : Bytes

/-- Modelled from the spec (§3): the record returned by `fdat.readFdat`. -/
structure FdatFile where
  model : Nat
  region : Nat
  version : String
  isAccessory : Bool
  firmware : Bytes
  fs : Bytes

/-- The `dat` section of the configuration record emitted by `unpackDat`
(fwtool.py lines 93-98). -/
structure DatConf where
  normalUsbDescriptors : List (Nat × Nat)
  updaterUsbDescriptors : List (Nat × Nat)
  isLens : Bool
  crypterName : String
deriving DecidableEq

/-- The `fdat` section of the configuration record emitted by `unpackFdat`
(fwtool.py lines 110-115). -/
structure FdatConf where
  model : Nat
  region : Nat
  version : String
  isAccessory : Bool
deriving DecidableEq

/-- A value in the emitted `config.yaml` mapping. -/
inductive Yaml where
  | null
  | datC (c : DatConf)
  | fdatC (c : FdatConf)
deriving DecidableEq

/-- Embedding of the `config.yaml` mapping written at fwtool.py lines 164-165:
the literal dict with exactly the keys `dat` and `fdat`, absent sections
serialized as null. -/
def configYaml (datConf : Option DatConf) (fdatConf : Option FdatConf) :
    List (String × Yaml) :=
  [("dat", (datConf.map Yaml.datC).getD Yaml.null),
   ("fdat", (fdatConf.map Yaml.fdatC).getD Yaml.null)]

/-- The collaborator decoders the driver calls but which are not part of the
repository source: `unpackInstaller`'s extraction of the DAT from an installer
executable (pe/zip modules, returning the zipped DAT's bytes and mtime),
`dat.readDat` and `fdat.readFdat`. -/
structure Collaborators where
  readExeDat : Bytes → Except String (Bytes × Nat)
  readDat : Bytes → Except String DatFile
  readFdat : Bytes → Except String FdatFile

/-- Embedding of `unpackDat` (fwtool.py lines 87-98): read the DAT record,
decrypt its firmware payload, and return the `dat` configuration section
together with the decrypted FDAT bytes (which the source writes to
`fdatFile`). -/
def unpackDat (readDat : Bytes → Except String DatFile) (datBytes : Bytes) :
    Except String (DatConf × Bytes) :=
  match readDat datBytes with
  | .error e => .error e
  | .ok datContents =>
    match decryptFdat datContents.firmwareData with
    | .error e => .error e
    | .ok (crypterName, data) =>
      .ok ({ normalUsbDescriptors := datContents.normalUsbDescriptors
             updaterUsbDescriptors := datContents.updaterUsbDescriptors
             isLens := datContents.isLens
             crypterName := crypterName }, data)

/-- Embedding of `unpackFdat` (fwtool.py lines 101-115): read the FDAT record
and return the `fdat` configuration section together with the list of
`UnixFile`s handed to `writeFileTree` (`/firmware.tar` and `/updater.img`). -/
def unpackFdat (readFdat : Bytes → Except String FdatFile) (fdatBytes : Bytes)
    (mtime : Nat) : Except String (FdatConf × List UnixFile) :=
  match readFdat fdatBytes with
  | .error e => .error e
  | .ok fdatContents =>
    .ok ({ model := fdatContents.model
           region := fdatContents.region
           version := fdatContents.version
           isAccessory := fdatContents.isAccessory },
         [toUnixFile "/firmware.tar" fdatContents.firmware mtime,
          toUnixFile "/updater.img" fdatContents.fs mtime])

/-- The detector verdicts of the six format predicates consulted by
`unpackCommand` on its input stream. -/
structure Detectors where
  isExe : Bool
  isDat : Bool
  isFdat : Bool
  isPartitionTable : Bool
  isBootloader : Bool
  isWbi : Bool
deriving DecidableEq

/-- The codec branch `unpackCommand` commits to. -/
inductive Branch where
  | exe
  | dat
  | fdat
  | dump
  | boot
  | wbi
deriving DecidableEq

/-- Body of the installer-executable branch of `unpackCommand`
(fwtool.py lines 144-148). -/
def runExe (Cb : Collaborators) (input : Bytes) :
    Except String (List (String × Yaml)) :=
  match Cb.readExeDat input with
  | .error e => .error e
  | .ok (datBytes, mt) =>
    match unpackDat Cb.readDat datBytes with
    | .error e => .error e
    | .ok (datConf, fdatBytes) =>
      match unpackFdat Cb.readFdat fdatBytes mt with
      | .error e => .error e
      | .ok (fdatConf, _) => .ok (configYaml (some datConf) (some fdatConf))

/-- Body of the DAT branch of `unpackCommand` (fwtool.py lines 149-152). -/
def runDat (Cb : Collaborators) (mtime : Nat) (input : Bytes) :
    Except String (List (String × Yaml)) :=
  match unpackDat Cb.readDat input with
  | .error e => .error e
  | .ok (datConf, fdatBytes) =>
    match unpackFdat Cb.readFdat fdatBytes mtime with
    | .error e => .error e
    | .ok (fdatConf, _) => .ok (configYaml (some datConf) (some fdatConf))

/-- Body of the bare-FDAT branch of `unpackCommand` (fwtool.py lines 153-154). -/
def runFdat (Cb : Collaborators) (mtime : Nat) (input : Bytes) :
    Except String (List (String × Yaml)) :=
  match unpackFdat Cb.readFdat input mtime with
  | .error e => .error e
  | .ok (fdatConf, _) => .ok (configYaml none (some fdatConf))

/-- Embedding of the detection chain of `unpackCommand`
(fwtool.py lines 144-162): the if/elif cascade over the six detectors,
returning the branch taken, or `none` for the final `else` that raises. -/
def selectBranch (d : Detectors) : Option Branch :=
  if d.isExe then some .exe
  else if d.isDat then some .dat
  else if d.isFdat then some .fdat
  else if d.isPartitionTable then some .dump
  else if d.isBootloader then some .boot
  else if d.isWbi then some .wbi
  else none

/-- Embedding of `unpackCommand` (fwtool.py lines 136-165) restricted to its
observable configuration output: the if/elif detector cascade runs the first
matching codec and the function returns the `config.yaml` mapping written at
lines 164-165; the flash-dump, bootloader and warm-boot-image branches leave
both configuration sections `None`.  The final `else` raises
`Exception('Unknown file type!')`. -/
def unpackCommand (Cb : Collaborators) (mtime : Nat) (d : Detectors)
    (input : Bytes) : Except String (List (String × Yaml)) :=
  if d.isExe then runExe Cb input
  else if d.isDat then runDat Cb mtime input
  else if d.isFdat then runFdat Cb mtime input
  else if d.isPartitionTable then .ok (configYaml none none)
  else if d.isBootloader then .ok (configYaml none none)
  else if d.isWbi then .ok (configYaml none none)
  else .error "Unknown file type!"

/-- The codec invocation belonging to each branch verdict, used to relate
`unpackCommand` to `selectBranch`. -/
def dispatchBranch (Cb : Collaborators) (mtime : Nat) (input : Bytes) :
    Option Branch → Except String (List (String × Yaml))
  | some .exe => runExe Cb input
  | some .dat => runDat Cb mtime input
  | some .fdat => runFdat Cb mtime input
  | some .dump => .ok (configYaml none none)
  | some .boot => .ok (configYaml none none)
  | some .wbi => .ok (configYaml none none)
  | none => .error "Unknown file type!"

/-- The detector verdicts paired with their branches in the order the source's
if/elif cascade consults them, following the spec's wording of the detection
order policy (installer executable, DAT, FDAT, flash dump, bootloader,
warm-boot-image). -/
def specDetectionOrder (d : Detectors) : List (Bool × Branch) :=
  [(d.isExe, .exe), (d.isDat, .dat), (d.isFdat, .fdat),
   (d.isPartitionTable, .dump), (d.isBootloader, .boot), (d.isWbi, .wbi)]

/-- Spec-worded first-match policy: the branch of the first detector that
returns true, later detectors not consulted. -/
def specFirstMatch (d : Detectors) : Option Branch :=
  ((specDetectionOrder d).find? (fun x => x.1)).map (fun x => x.2)

/-! ## The recursive tree writer `writeFileTree`

The archive capability (`fwtool.archive.isArchive` / `readArchive`) is not
part of the repository source; it is taken as a pair of abstract function
parameters, as the spec describes it (§4.9, a polymorphic capability over
archive-like formats).  The effects of a run are recorded as an event list;
the source function recurses with no depth counter, so the embedding carries
an explicit fuel argument whose exhaustion (`none`) marks a run that is still
recursing after `fuel` nested levels. -/

/-- Embedding of `posixpath.dirname` as used by `writeFileTree` line 33:
everything up to the last slash, trailing slashes stripped unless the head is
all slashes. -/
def dirname (p : String) : String :=
  let cs := p.toList
  let head := ((cs.reverse.dropWhile (fun c => c ≠ '/')).reverse)
  if head ≠ [] ∧ ¬ head.all (fun c => c = '/') then
    String.mk ((head.reverse.dropWhile (fun c => c = '/')).reverse)
  else
    String.mk head

/-- One observable effect of a `writeFileTree` run: directory creation, a file
write, the archive dispatch on a written regular file (the
`archive.isArchive(dstFile)` call at line 41), a recursive unpacking into a
subtree (line 43, with its nested events), or an mtime update. -/
inductive FsEvent where
  | mkdir (path : String)
  | write (path : String) (data : Bytes)
  | dispatch (path : String)
  | unpacked (root : String) (sub : List FsEvent)
  | settime (path : String) (t : Nat)

/-- The write phase of `writeFileTree` (fwtool.py lines 28-35): directories
are created, regular files have their parent directory created and their
contents written, other modes are skipped. -/
def writeEvents : List (String × UnixFile) → List FsEvent
  | [] => []
  | (fn, f) :: rest =>
    (if S_ISDIR f.mode then [.mkdir fn]
     else if S_ISREG f.mode then [.mkdir (dirname fn), .write fn f.contents]
     else []) ++ writeEvents rest

/-- The mtime phase of `writeFileTree` (fwtool.py lines 45-48). -/
def mtimeEvents : List (String × UnixFile) → List FsEvent
  | [] => []
  | (fn, f) :: rest =>
    (if S_ISDIR f.mode || S_ISREG f.mode then [.settime fn f.mtime] else []) ++
    mtimeEvents rest

/-- The recursion phase of `writeFileTree` (fwtool.py lines 37-43), abstracted
over the recursive call `recurse`: every regular file is dispatched through
`isArchive`; when it matches, its contents are decomposed under
`fn ++ "_unpacked"` before the next entry is considered. -/
def wftRecAux (A : Bytes → Bool) (R : Bytes → List UnixFile)
    (recurse : List UnixFile → String → Option (List FsEvent)) :
    List (String × UnixFile) → Option (List FsEvent)
  | [] => some []
  | (fn, f) :: rest =>
    if S_ISREG f.mode then
      if A f.contents then
        match recurse (R f.contents) (fn ++ "_unpacked") with
        | none => none
        | some sub =>
          match wftRecAux A R recurse rest with
          | none => none
          | some evs => some (.dispatch fn :: .unpacked (fn ++ "_unpacked") sub :: evs)
      else
        match wftRecAux A R recurse rest with
        | none => none
        | some evs => some (.dispatch fn :: evs)
    else wftRecAux A R recurse rest

/-- Embedding of `writeFileTree` (fwtool.py lines 24-48): prefix each file's
path with the destination, write all files, then dispatch every regular file
through the archive capability, recursing into matches, then set mtimes.  The
source has no depth counter; `fuel` bounds the embedding only, and `none`
means the run is still recursing when `fuel` nested levels are exhausted. -/
def writeFileTree (A : Bytes → Bool) (R : Bytes → List UnixFile) :
    Nat → List UnixFile → String → Option (List FsEvent)
  | 0 => fun _ _ => none
  | fuel + 1 => fun files path =>
    let entries := files.map (fun f => (path ++ f.path, f))
    match wftRecAux A R (writeFileTree A R fuel) entries with
    | none => none
    | some recEvents => some (writeEvents entries ++ recEvents ++ mtimeEvents entries)

/-- The archive-dispatch calls recorded at the top level of an event list
(nested levels are inside `unpacked` and not traversed). -/
def dispatchPaths : List FsEvent → List String
  | [] => []
  | .dispatch p :: rest => p :: dispatchPaths rest
  | _ :: rest => dispatchPaths rest

/-- A synthetic archive magic for the self-containing-archive scenario. -/
def selfArchiveMagic : Bytes := [9]

/-- The synthetic regular file whose contents claim to be an archive that
contains the file itself. -/
def selfFile : UnixFile := toUnixFile "/evil" selfArchiveMagic

/-- Archive detector of the self-containing scenario: exactly the magic
matches. -/
def isSelfArchive (b : Bytes) : Bool := b == selfArchiveMagic

/-- Archive reader of the self-containing scenario: the archive (incorrectly)
claims to contain itself. -/
def readSelfArchive (_ : Bytes) : List UnixFile := [selfFile]

/-! ## Backup property store -/

/-- Modelled from the spec (§3): one decoded backup property record. -/
structure BackupProperty where
  id : Nat
  attr : Nat
  data : Bytes
  resetData : Bytes
deriving DecidableEq

/-- A raw backup-store record as it sits in the file, whose `resetData` may be
absent. -/
structure BackupRecordRaw where
  id : Nat
  attr : Nat
  data : Bytes
  resetData : Option Bytes
deriving DecidableEq

/-- Modelled from the spec (§4.8): decoding one record of
`fwtool.sony.backup.readBackup`, defaulting an absent `resetData` to `data`. -/
def decodeBackupRecord (r : BackupRecordRaw) : BackupProperty :=
  { id := r.id
    attr := r.attr
    data := r.data
    resetData := r.resetData.getD r.data }

/-- Modelled from the spec (§4.8): `backup.readBackup` yields the decoded
records in file order. -/
def readBackup (rs : List BackupRecordRaw) : List BackupProperty :=
  rs.map decodeBackupRecord

/-- Embedding of the reset-data print condition of `printBackupCommand`
(fwtool.py line 217): `if property.resetData and property.resetData !=
property.data` — Python truthiness of bytes is non-emptiness. -/
def printsResetSection (p : BackupProperty) : Bool :=
  !(p.resetData.isEmpty) && p.resetData != p.data

/-! ## Handle traces of `packCommand` -/

/-- A file-handle acquisition or release event. -/
inductive HEvent where
  | hopen (n : String)
  | hclose (n : String)
deriving DecidableEq

/-- Embedding of the handle behaviour of `packCommand` (fwtool.py
lines 168-201), abstracted to which optional arguments and configuration
sections are present (the source only tests their truthiness): the
`updater_packed.img` handle at line 177 is opened by a bare `open` with no
`with` block and no `close` call, while the two `with` blocks release their
handles when their bodies exit. -/
def packCommandHandles (fsFileGiven bodyFileGiven datConfGiven fdatConfGiven : Bool) :
    List HEvent :=
  (if !fsFileGiven && bodyFileGiven then [.hopen "updater_packed.img"] else []) ++
  (if fdatConfGiven then
    [.hopen "firmware_packed.fdat"] ++
    (if datConfGiven then [.hopen "firmware_packed.dat", .hclose "firmware_packed.dat"]
     else []) ++
    [.hclose "firmware_packed.fdat"]
   else [])

/-- Whether every opened handle in a trace is also released in it. -/
def releasedAll (t : List HEvent) : Bool :=
  t.all (fun e => match e with
    | .hopen n => t.contains (.hclose n)
    | .hclose _ => true)

/-- Embedding of the FDAT re-encryption call of `packCommand`
(fwtool.py line 194): the payload is re-encrypted with exactly the
`crypterName` recorded in the configuration's `dat` section. -/
def packFdatEncrypt (datConf : DatConf) (fdatBytes : Bytes) : Except String Bytes :=
  encryptFdat fdatBytes datConf.crypterName

/-! ## Concrete sample data used by witness theorems -/

/-- A collaborator record whose decoders all fail. -/
def stubCollab : Collaborators :=
  { readExeDat := fun _ => .error "stub"
    readDat := fun _ => .error "stub"
    readFdat := fun _ => .error "stub" }

/-- Sample FDAT plaintext. -/
def wPlain : Bytes := [1, 2, 3]

/-- Sample DAT record whose payload is `wPlain` encrypted by scheme-A. -/
def wDatFile : DatFile :=
  { normalUsbDescriptors := [(0x054C, 0x0001)]
    updaterUsbDescriptors := []
    isLens := false
    firmwareData := cryptBytes 0x9E (0 :: wPlain) }

/-- Sample FDAT record. -/
def wFdatFile : FdatFile :=
  { model := 0x123
    region := 2
    version := "1.00"
    isAccessory := false
    firmware := [0xAA]
    fs := [0xBB] }

/-- The `fdat` configuration section belonging to `wFdatFile`. -/
def wFdatConf : FdatConf :=
  { model := 0x123
    region := 2
    version := "1.00"
    isAccessory := false }

/-- Collaborators that successfully decode the sample DAT and FDAT records. -/
def wCollab : Collaborators :=
  { readExeDat := fun _ => .error "stub"
    readDat := fun _ => .ok wDatFile
    readFdat := fun _ => .ok wFdatFile }

/-- Archive detector of the C5 witness scenario: the one-byte magic `[7]`. -/
def wIsArch (b : Bytes) : Bool := b == [7]

/-- Archive reader of the C5 witness scenario: an empty archive. -/
def wReadArch (_ : Bytes) : List UnixFile := []

/-- A directory entry for the C5 witness scenario. -/
def wDir : UnixFile :=
  { path := "/d", size := -1, mtime := 0, mode := S_IFDIR ||| 0o775
    uid := 0, gid := 0, contents := [] }

/-- A plain regular file for the C5 witness scenario. -/
def wReg : UnixFile := toUnixFile "/f" [1]

/-- A regular file holding the C5 witness archive magic. -/
def wArcFile : UnixFile := toUnixFile "/g" [7]

/-- The C5 witness file tree: a directory, a plain file, an archive file. -/
def wFiles : List UnixFile := [wDir, wReg, wArcFile]

/-- The events of the C5 witness run. -/
def wEvs : List FsEvent := (writeFileTree wIsArch wReadArch 2 wFiles "/o").getD []

/-- First raw record of the backup-store scenario: `resetData` absent. -/
def wRaw1 : BackupRecordRaw :=
  { id := 0x1, attr := 0x00, data := [1, 2], resetData := none }

/-- Second raw record of the backup-store scenario. -/
def wRaw2 : BackupRecordRaw :=
  { id := 0x2, attr := 0x80, data := [], resetData := some [0xFF] }

/-! ## Lemmas about the FDAT crypto layer -/

theorem cryptBytes_cons (k x : Nat) (xs : Bytes) :
    cryptBytes k (x :: xs) = (x ^^^ k) :: cryptBytes k xs := rfl

theorem cryptBytes_cryptBytes (k : Nat) (bs : Bytes) :
    cryptBytes k (cryptBytes k bs) = bs := by
  induction bs with
  | nil => rfl
  | cons x xs ih =>
    simp only [cryptBytes_cons, ih, Nat.xor_assoc, Nat.xor_self, Nat.xor_zero]

/-- The round-trip law, as a helper shared between claim proofs. -/
theorem decrypt_encrypt_aux (p : Bytes) (id : String)
    (h : id ∈ fdatCrypters.map Prod.fst) :
    (encryptFdat p id).bind decryptFdat = .ok (id, p) := by
  simp only [fdatCrypters, List.map, List.mem_cons, List.not_mem_nil, or_false] at h
  rcases h with rfl | rfl | rfl <;>
    simp +decide [encryptFdat, decryptFdat, fdatCrypters, tryCrypters, List.lookup,
      Except.bind, cryptBytes_cryptBytes, cryptBytes_cons]

/-- Any identifier accepted by the trial-decryption loop is registered. -/
theorem tryCrypters_mem (l : List (String × Nat)) (c : Bytes) (n : String)
    (p : Bytes) (h : tryCrypters l c = .ok (n, p)) : n ∈ l.map Prod.fst := by
  induction l with
  | nil => simp [tryCrypters] at h
  | cons x rest ih =>
    obtain ⟨name, key⟩ := x
    simp only [tryCrypters] at h
    split at h
    · obtain ⟨rfl, rfl⟩ : name = n ∧ (cryptBytes key c).tail = p := by
        simpa using h
      simp
    · simpa using Or.inr (ih h)

/-! ## Claim theorems -/

/-- C1: for every registered crypter identifier `id` and every plaintext
stream `p` (including the empty one), `decryptFdat (encryptFdat p id)`
returns `(id, p)`; and for any DAT input `unpackDat` decodes, packing
re-encrypts the FDAT with exactly the `crypterName` recorded in the
configuration, and that re-encryption decrypts back to the same identifier
and plaintext. -/
theorem fdat_crypto_roundtrip :
    (∀ (p : Bytes) (id : String), id ∈ fdatCrypters.map Prod.fst →
      (encryptFdat p id).bind decryptFdat = .ok (id, p)) ∧
    (∀ (readDat : Bytes → Except String DatFile) (db : Bytes) (conf : DatConf)
      (plain : Bytes), unpackDat readDat db = .ok (conf, plain) →
      ∃ c, packFdatEncrypt conf plain = .ok c ∧
        decryptFdat c = .ok (conf.crypterName, plain)) := by
  constructor
  · exact decrypt_encrypt_aux
  · intro readDat db conf plain h
    unfold unpackDat at h
    cases h1 : readDat db with
    | error e => rw [h1] at h; simp at h
    | ok df =>
      rw [h1] at h
      dsimp only at h
      cases h2 : decryptFdat df.firmwareData with
      | error e => rw [h2] at h; simp at h
      | ok v =>
        obtain ⟨name, data⟩ := v
        rw [h2] at h
        simp only [Except.ok.injEq, Prod.mk.injEq] at h
        obtain ⟨rfl, rfl⟩ := h
        have hmem : name ∈ fdatCrypters.map Prod.fst :=
          tryCrypters_mem fdatCrypters df.firmwareData name data h2
        have hrt := decrypt_encrypt_aux data name hmem
        cases he : encryptFdat data name with
        | error e => rw [he] at hrt; simp [Except.bind] at hrt
        | ok c =>
          rw [he] at hrt
          simp only [Except.bind] at hrt
          exact ⟨c, he, hrt⟩

/-- C1 witness: the round-trip evaluated at scheme-B on plaintext `[1, 2]`,
and the unpack-then-repack crypter consistency evaluated on the sample DAT. -/
theorem fdat_crypto_roundtrip_witness :
    (encryptFdat [1, 2] "scheme-B").bind decryptFdat = .ok ("scheme-B", [1, 2]) ∧
    (∃ c, packFdatEncrypt
        { normalUsbDescriptors := [(0x054C, 0x0001)], updaterUsbDescriptors := [],
          isLens := false, crypterName := "scheme-A" } wPlain = .ok c ∧
      decryptFdat c = .ok ("scheme-A", wPlain)) :=
  ⟨fdat_crypto_roundtrip.1 [1, 2] "scheme-B" (by decide),
   fdat_crypto_roundtrip.2 (fun _ => .ok wDatFile) [] _ wPlain rfl⟩

/-- The detection cascade of `unpackCommand` picks the first detector that
returns true, in spec order (helper, proved by exhausting the 64 detector
verdict combinations). -/
theorem selectBranch_eq_specFirstMatch (d : Detectors) :
    selectBranch d = specFirstMatch d := by
  obtain ⟨a, b, c, e, f, g⟩ := d
  cases a <;> cases b <;> cases c <;> cases e <;> cases f <;> cases g <;> rfl

/-- The codec `unpackCommand` runs is exactly the one belonging to the branch
`selectBranch` picks (helper). -/
theorem unpackCommand_eq_dispatchBranch (Cb : Collaborators) (mt : Nat)
    (d : Detectors) (input : Bytes) :
    unpackCommand Cb mt d input = dispatchBranch Cb mt input (selectBranch d) := by
  obtain ⟨a, b, c, e, f, g⟩ := d
  cases a <;> cases b <;> cases c <;> cases e <;> cases f <;> cases g <;> rfl

/-- C3: for every top-level input, the driver consults the detectors in the
fixed order installer executable, DAT, FDAT, flash dump, bootloader,
warm-boot-image, and invokes the codec belonging to the first detector that
returns true; later detectors are not consulted once one matches. -/
theorem unpack_detection_order (Cb : Collaborators) (mt : Nat) (d : Detectors)
    (input : Bytes) :
    selectBranch d = specFirstMatch d ∧
    unpackCommand Cb mt d input = dispatchBranch Cb mt input (selectBranch d) :=
  ⟨selectBranch_eq_specFirstMatch d, unpackCommand_eq_dispatchBranch Cb mt d input⟩

/-- C6 counterexample: with no detector matching, the error `unpackCommand`
raises is the untyped `Exception('Unknown file type!')` of fwtool.py line 162,
whose message is not the claimed "unrecognized file type" surface text (and no
typed `UnsupportedFormatError` exists in the code). -/
theorem unpack_unknown_counterexample :
    unpackCommand stubCollab 0 ⟨false, false, false, false, false, false⟩ [] =
      .error "Unknown file type!" ∧
    "Unknown file type!" ≠ "unrecognized file type" :=
  ⟨rfl, by decide⟩

/-- C6 amended: when no detector matches, `unpackCommand` raises a generic
`Exception` with message "Unknown file type!", no branch is selected, and no
codec is invoked — the outcome does not depend on the collaborator codecs or
on the input at all. -/
theorem unpack_unknown_file_type (Cb Cb' : Collaborators) (mt mt' : Nat)
    (d : Detectors) (input input' : Bytes)
    (h1 : d.isExe = false) (h2 : d.isDat = false) (h3 : d.isFdat = false)
    (h4 : d.isPartitionTable = false) (h5 : d.isBootloader = false)
    (h6 : d.isWbi = false) :
    unpackCommand Cb mt d input = .error "Unknown file type!" ∧
    selectBranch d = none ∧
    unpackCommand Cb mt d input = unpackCommand Cb' mt' d input' := by
  simp [unpackCommand, selectBranch, h1, h2, h3, h4, h5, h6]

/-- C6 witness: the amended behaviour at an all-false detector record, with
two different collaborator records and inputs. -/
theorem unpack_unknown_file_type_witness :
    unpackCommand stubCollab 3 ⟨false, false, false, false, false, false⟩ [0] =
      .error "Unknown file type!" ∧
    selectBranch ⟨false, false, false, false, false, false⟩ = none ∧
    unpackCommand stubCollab 3 ⟨false, false, false, false, false, false⟩ [0] =
      unpackCommand wCollab 5 ⟨false, false, false, false, false, false⟩ [1] :=
  unpack_unknown_file_type stubCollab wCollab 3 5
    ⟨false, false, false, false, false, false⟩ [0] [1] rfl rfl rfl rfl rfl rfl

/-- C4: on a DAT input the driver emits a configuration whose `dat` section
carries exactly the DAT's descriptor lists, lens flag and the crypter name
returned by `decryptFdat`, and whose `fdat` section carries exactly the
model, region, version and accessory flag of the decoded FDAT, alongside the
firmware/filesystem tree `/firmware.tar`, `/updater.img`. -/
theorem unpack_dat_config (Cb : Collaborators) (mt : Nat) (d : Detectors)
    (input : Bytes) (df : DatFile) (name : String) (plain : Bytes)
    (ff : FdatFile)
    (hexe : d.isExe = false) (hdat : d.isDat = true)
    (h1 : Cb.readDat input = .ok df)
    (h2 : decryptFdat df.firmwareData = .ok (name, plain))
    (h3 : Cb.readFdat plain = .ok ff) :
    unpackCommand Cb mt d input =
      .ok (configYaml
        (some { normalUsbDescriptors := df.normalUsbDescriptors
                updaterUsbDescriptors := df.updaterUsbDescriptors
                isLens := df.isLens
                crypterName := name })
        (some { model := ff.model, region := ff.region, version := ff.version
                isAccessory := ff.isAccessory })) ∧
    unpackFdat Cb.readFdat plain mt =
      .ok ({ model := ff.model, region := ff.region, version := ff.version
             isAccessory := ff.isAccessory },
           [toUnixFile "/firmware.tar" ff.firmware mt,
            toUnixFile "/updater.img" ff.fs mt]) := by
  constructor
  · simp only [unpackCommand, hexe, hdat, Bool.false_eq_true, if_false, if_true,
      runDat, unpackDat, unpackFdat, h1, h2, h3]
  · simp only [unpackFdat, h3]

/-- C4 witness: the sample DAT input (one normal USB descriptor
`(0x054C, 0x0001)`, no updater descriptors, `isLens` false, payload encrypted
by scheme-A) decodes to the expected configuration record and tree. -/
theorem unpack_dat_config_witness :
    unpackCommand wCollab 7 ⟨false, true, false, false, false, false⟩ [] =
      .ok (configYaml
        (some { normalUsbDescriptors := [(0x054C, 0x0001)]
                updaterUsbDescriptors := []
                isLens := false
                crypterName := "scheme-A" })
        (some { model := 0x123, region := 2, version := "1.00"
                isAccessory := false })) ∧
    unpackFdat wCollab.readFdat wPlain 7 =
      .ok ({ model := 0x123, region := 2, version := "1.00"
             isAccessory := false },
           [toUnixFile "/firmware.tar" [0xAA] 7,
            toUnixFile "/updater.img" [0xBB] 7]) :=
  unpack_dat_config wCollab 7 ⟨false, true, false, false, false, false⟩ []
    wDatFile "scheme-A" wPlain wFdatFile rfl rfl rfl rfl rfl

/-- Success shape of the installer-executable branch (helper). -/
theorem runExe_ok (Cb : Collaborators) (input : Bytes)
    (y : List (String × Yaml)) (h : runExe Cb input = .ok y) :
    ∃ dc fc, y = configYaml (some dc) (some fc) := by
  unfold runExe at h
  cases h1 : Cb.readExeDat input with
  | error e => rw [h1] at h; simp at h
  | ok v =>
    obtain ⟨db, mt⟩ := v
    rw [h1] at h
    dsimp only at h
    cases h2 : unpackDat Cb.readDat db with
    | error e => rw [h2] at h; simp at h
    | ok v2 =>
      obtain ⟨dc, fb⟩ := v2
      rw [h2] at h
      dsimp only at h
      cases h3 : unpackFdat Cb.readFdat fb mt with
      | error e => rw [h3] at h; simp at h
      | ok v3 =>
        obtain ⟨fc, tree⟩ := v3
        rw [h3] at h
        simp only [Except.ok.injEq] at h
        exact ⟨dc, fc, h.symm⟩

/-- Success shape of the DAT branch (helper). -/
theorem runDat_ok (Cb : Collaborators) (mt : Nat) (input : Bytes)
    (y : List (String × Yaml)) (h : runDat Cb mt input = .ok y) :
    ∃ dc fc, y = configYaml (some dc) (some fc) := by
  unfold runDat at h
  cases h2 : unpackDat Cb.readDat input with
  | error e => rw [h2] at h; simp at h
  | ok v2 =>
    obtain ⟨dc, fb⟩ := v2
    rw [h2] at h
    dsimp only at h
    cases h3 : unpackFdat Cb.readFdat fb mt with
    | error e => rw [h3] at h; simp at h
    | ok v3 =>
      obtain ⟨fc, tree⟩ := v3
      rw [h3] at h
      simp only [Except.ok.injEq] at h
      exact ⟨dc, fc, h.symm⟩

/-- Success shape of the bare-FDAT branch (helper). -/
theorem runFdat_ok (Cb : Collaborators) (mt : Nat) (input : Bytes)
    (y : List (String × Yaml)) (h : runFdat Cb mt input = .ok y) :
    ∃ fc, y = configYaml none (some fc) := by
  unfold runFdat at h
  cases h3 : unpackFdat Cb.readFdat input mt with
  | error e => rw [h3] at h; simp at h
  | ok v3 =>
    obtain ⟨fc, tree⟩ := v3
    rw [h3] at h
    simp only [Except.ok.injEq] at h
    exact ⟨fc, h.symm⟩

/-- C9: every successful `unpackCommand` run writes a configuration mapping
with exactly the keys `dat` and `fdat`; both sections are null on the
flash-dump, bootloader and warm-boot-image branches, only `dat` is null on
the bare-FDAT branch, and both are populated on the installer-executable and
DAT branches. -/
theorem unpack_config_exactly_dat_fdat (Cb : Collaborators) (mt : Nat)
    (d : Detectors) (input : Bytes) (y : List (String × Yaml))
    (h : unpackCommand Cb mt d input = .ok y) :
    y.map Prod.fst = ["dat", "fdat"] ∧
    ((selectBranch d = some .dump ∨ selectBranch d = some .boot ∨
      selectBranch d = some .wbi) → y = configYaml none none) ∧
    (selectBranch d = some .fdat → ∃ fc, y = configYaml none (some fc)) ∧
    ((selectBranch d = some .exe ∨ selectBranch d = some .dat) →
      ∃ dc fc, y = configYaml (some dc) (some fc)) := by
  rw [unpackCommand_eq_dispatchBranch] at h
  cases hb : selectBranch d <;> rw [hb] at h
  case none => simp [dispatchBranch] at h
  case some b =>
    cases b
    case exe =>
      obtain ⟨dc, fc, rfl⟩ := runExe_ok Cb input y h
      exact ⟨rfl, by simp [hb], by simp [hb], fun _ => ⟨dc, fc, rfl⟩⟩
    case dat =>
      obtain ⟨dc, fc, rfl⟩ := runDat_ok Cb mt input y h
      exact ⟨rfl, by simp [hb], by simp [hb], fun _ => ⟨dc, fc, rfl⟩⟩
    case fdat =>
      obtain ⟨fc, rfl⟩ := runFdat_ok Cb mt input y h
      exact ⟨rfl, by simp [hb], fun _ => ⟨fc, rfl⟩, by simp [hb]⟩
    case dump =>
      simp only [dispatchBranch, Except.ok.injEq] at h
      subst h
      exact ⟨rfl, fun _ => rfl, by simp [hb], by simp [hb]⟩
    case boot =>
      simp only [dispatchBranch, Except.ok.injEq] at h
      subst h
      exact ⟨rfl, fun _ => rfl, by simp [hb], by simp [hb]⟩
    case wbi =>
      simp only [dispatchBranch, Except.ok.injEq] at h
      subst h
      exact ⟨rfl, fun _ => rfl, by simp [hb], by simp [hb]⟩

/-- C9 witness: a bare-FDAT input produces a config mapping with keys
`dat`, `fdat`, a null `dat` section and a populated `fdat` section. -/
theorem unpack_config_exactly_dat_fdat_witness :
    (configYaml none (some wFdatConf)).map Prod.fst = ["dat", "fdat"] ∧
    (∃ fc, configYaml none (some wFdatConf) = configYaml none (some fc)) := by
  have h := unpack_config_exactly_dat_fdat wCollab 7
    ⟨false, false, true, false, false, false⟩ []
    (configYaml none (some wFdatConf)) rfl
  exact ⟨h.1, h.2.2.1 rfl⟩

/-! ## Lemmas about `writeFileTree` -/

theorem dispatchPaths_append (a b : List FsEvent) :
    dispatchPaths (a ++ b) = dispatchPaths a ++ dispatchPaths b := by
  induction a with
  | nil => rfl
  | cons x xs ih => cases x <;> simp [dispatchPaths, ih]

theorem dispatchPaths_writeEvents (entries : List (String × UnixFile)) :
    dispatchPaths (writeEvents entries) = [] := by
  induction entries with
  | nil => rfl
  | cons e rest ih =>
    obtain ⟨fn, f⟩ := e
    rw [writeEvents, dispatchPaths_append, ih, List.append_nil]
    split
    · rfl
    · split <;> rfl

theorem dispatchPaths_mtimeEvents (entries : List (String × UnixFile)) :
    dispatchPaths (mtimeEvents entries) = [] := by
  induction entries with
  | nil => rfl
  | cons e rest ih =>
    obtain ⟨fn, f⟩ := e
    rw [mtimeEvents, dispatchPaths_append, ih, List.append_nil]
    split <;> rfl

/-- The recursion phase dispatches exactly the regular files, in order
(helper). -/
theorem wftRecAux_dispatchPaths (A : Bytes → Bool) (R : Bytes → List UnixFile)
    (recurse : List UnixFile → String → Option (List FsEvent)) :
    ∀ (entries : List (String × UnixFile)) (evs : List FsEvent),
    wftRecAux A R recurse entries = some evs →
    dispatchPaths evs =
      (entries.filter (fun e => S_ISREG e.2.mode)).map Prod.fst := by
  intro entries
  induction entries with
  | nil =>
    intro evs h
    simp only [wftRecAux, Option.some.injEq] at h
    subst h
    rfl
  | cons e rest ih =>
    intro evs h
    obtain ⟨fn, f⟩ := e
    rw [wftRecAux] at h
    by_cases hreg : S_ISREG f.mode = true
    · rw [if_pos hreg] at h
      by_cases harch : A f.contents = true
      · rw [if_pos harch] at h
        cases hr : recurse (R f.contents) (fn ++ "_unpacked") with
        | none => rw [hr] at h; simp at h
        | some sub =>
          rw [hr] at h
          dsimp only at h
          cases hw : wftRecAux A R recurse rest with
          | none => rw [hw] at h; simp at h
          | some evs2 =>
            rw [hw] at h
            simp only [Option.some.injEq] at h
            subst h
            simp [dispatchPaths, List.filter_cons, hreg, ih evs2 hw]
      · rw [if_neg harch] at h
        cases hw : wftRecAux A R recurse rest with
        | none => rw [hw] at h; simp at h
        | some evs2 =>
          rw [hw] at h
          simp only [Option.some.injEq] at h
          subst h
          simp [dispatchPaths, List.filter_cons, hreg, ih evs2 hw]
    · rw [if_neg hreg] at h
      have := ih evs h
      rw [this]
      simp [List.filter_cons, hreg]

/-- Every regular entry whose contents the archive capability recognises is
recursively decomposed under `fn ++ "_unpacked"`, and the recursion's events
are recorded (helper). -/
theorem wftRecAux_unpacked (A : Bytes → Bool) (R : Bytes → List UnixFile)
    (recurse : List UnixFile → String → Option (List FsEvent)) :
    ∀ (entries : List (String × UnixFile)) (evs : List FsEvent),
    wftRecAux A R recurse entries = some evs →
    ∀ fn f, (fn, f) ∈ entries → S_ISREG f.mode = true → A f.contents = true →
    ∃ sub, recurse (R f.contents) (fn ++ "_unpacked") = some sub ∧
      FsEvent.unpacked (fn ++ "_unpacked") sub ∈ evs := by
  intro entries
  induction entries with
  | nil => intro evs h fn f hmem; simp at hmem
  | cons e rest ih =>
    intro evs h fn f hmem hreg harch
    obtain ⟨gn, g⟩ := e
    rw [wftRecAux] at h
    rcases List.mem_cons.mp hmem with hhead | htail
    · obtain ⟨rfl, rfl⟩ := Prod.mk.injEq .. ▸ hhead
      rw [if_pos hreg, if_pos harch] at h
      cases hr : recurse (R f.contents) (fn ++ "_unpacked") with
      | none => rw [hr] at h; simp at h
      | some sub =>
        rw [hr] at h
        dsimp only at h
        cases hw : wftRecAux A R recurse rest with
        | none => rw [hw] at h; simp at h
        | some evs2 =>
          rw [hw] at h
          simp only [Option.some.injEq] at h
          subst h
          exact ⟨sub, rfl, by simp⟩
    · by_cases hgreg : S_ISREG g.mode = true
      · rw [if_pos hgreg] at h
        by_cases hgarch : A g.contents = true
        · rw [if_pos hgarch] at h
          cases hr : recurse (R g.contents) (gn ++ "_unpacked") with
          | none => rw [hr] at h; simp at h
          | some sub =>
            rw [hr] at h
            dsimp only at h
            cases hw : wftRecAux A R recurse rest with
            | none => rw [hw] at h; simp at h
            | some evs2 =>
              rw [hw] at h
              simp only [Option.some.injEq] at h
              subst h
              obtain ⟨sub2, hs2, hm2⟩ := ih evs2 hw fn f htail hreg harch
              exact ⟨sub2, hs2, by simp [hm2]⟩
        · rw [if_neg hgarch] at h
          cases hw : wftRecAux A R recurse rest with
          | none => rw [hw] at h; simp at h
          | some evs2 =>
            rw [hw] at h
            simp only [Option.some.injEq] at h
            subst h
            obtain ⟨sub2, hs2, hm2⟩ := ih evs2 hw fn f htail hreg harch
            exact ⟨sub2, hs2, by simp [hm2]⟩
      · rw [if_neg hgreg] at h
        obtain ⟨sub2, hs2, hm2⟩ := ih evs h fn f htail hreg harch
        exact ⟨sub2, hs2, hm2⟩

/-- C5: in a `writeFileTree` run, the archive dispatcher is applied exactly
to the regular files (directories are never dispatched), in order, and every
regular file the capability recognises as an archive is recursively
decomposed into a subtree rooted at its written path plus `_unpacked`. -/
theorem writeFileTree_dispatch (A : Bytes → Bool) (R : Bytes → List UnixFile)
    (fuel : Nat) (files : List UnixFile) (path : String) (evs : List FsEvent)
    (h : writeFileTree A R (fuel + 1) files path = some evs) :
    dispatchPaths evs =
      (files.filter (fun f => S_ISREG f.mode)).map (fun f => path ++ f.path) ∧
    ∀ f ∈ files, S_ISREG f.mode = true → A f.contents = true →
      ∃ sub, writeFileTree A R fuel (R f.contents)
          (path ++ f.path ++ "_unpacked") = some sub ∧
        FsEvent.unpacked (path ++ f.path ++ "_unpacked") sub ∈ evs := by
  rw [writeFileTree] at h
  dsimp only at h
  cases hw : wftRecAux A R (writeFileTree A R fuel)
      (files.map fun f => (path ++ f.path, f)) with
  | none => rw [hw] at h; simp at h
  | some re =>
    rw [hw] at h
    simp only [Option.some.injEq] at h
    subst h
    constructor
    · rw [dispatchPaths_append, dispatchPaths_append, dispatchPaths_writeEvents,
        dispatchPaths_mtimeEvents, List.nil_append, List.append_nil]
      rw [wftRecAux_dispatchPaths A R (writeFileTree A R fuel) _ re hw]
      rw [List.filter_map, List.map_map]
      rfl
    · intro f hf hreg harch
      have hmem : (path ++ f.path, f) ∈ files.map (fun f => (path ++ f.path, f)) :=
        List.mem_map_of_mem _ hf
      obtain ⟨sub, hsub, hmem2⟩ :=
        wftRecAux_unpacked A R (writeFileTree A R fuel) _ re hw
          (path ++ f.path) f hmem hreg harch
      exact ⟨sub, hsub, by simp [hmem2]⟩

/-- C5 witness: in the concrete run, exactly the two regular files are
dispatched (the directory is not), and the archive file is decomposed under
`/o/g_unpacked`. -/
theorem writeFileTree_dispatch_witness :
    dispatchPaths wEvs = ["/o/f", "/o/g"] ∧
    (∃ sub, writeFileTree wIsArch wReadArch 1 (wReadArch [7])
        ("/o/g" ++ "_unpacked") = some sub ∧
      FsEvent.unpacked ("/o/g" ++ "_unpacked") sub ∈ wEvs) := by
  have h := writeFileTree_dispatch wIsArch wReadArch 1 wFiles "/o" wEvs rfl
  exact ⟨h.1, h.2 wArcFile (by simp [wFiles]) rfl rfl⟩

/-- On the self-containing archive, `writeFileTree` exhausts every recursion
budget (helper). -/
theorem writeFileTree_selfArchive_aux (n : Nat) :
    ∀ path, writeFileTree isSelfArchive readSelfArchive n [selfFile] path = none := by
  induction n with
  | zero => intro path; rfl
  | succ n ih =>
    intro path
    have hreg : S_ISREG selfFile.mode = true := rfl
    have harch : isSelfArchive selfFile.contents = true := rfl
    rw [writeFileTree]
    dsimp only [List.map]
    rw [wftRecAux, if_pos hreg, if_pos harch]
    show (match (match writeFileTree isSelfArchive readSelfArchive n
        (readSelfArchive selfFile.contents)
        ((path ++ selfFile.path) ++ "_unpacked") with
      | none => none
      | some sub =>
        match wftRecAux isSelfArchive readSelfArchive
            (writeFileTree isSelfArchive readSelfArchive n) [] with
        | none => none
        | some evs => some (.dispatch (path ++ selfFile.path) ::
            .unpacked ((path ++ selfFile.path) ++ "_unpacked") sub :: evs)) with
      | none => none
      | some recEvents => some (writeEvents [(path ++ selfFile.path, selfFile)] ++
          recEvents ++ mtimeEvents [(path ++ selfFile.path, selfFile)])) = none
    rw [show readSelfArchive selfFile.contents = [selfFile] from rfl, ih]

/-- C2 counterexample: the synthetic self-containing archive is still
recursing after 1000 nested levels — at no depth does the run stop with any
error; the code has no depth counter and defines no
`RecursionLimitExceededError`. -/
theorem writeFileTree_self_counterexample :
    writeFileTree isSelfArchive readSelfArchive 1000 [selfFile] "/out" = none :=
  writeFileTree_selfArchive_aux 1000 "/out"

/-- C2 amended: `writeFileTree` enforces no recursion depth cap: on a
synthetic archive claiming to contain itself, the recursion exhausts every
finite depth budget `n` without completing and without raising any
`RecursionLimitExceededError` (no such error exists in the code; a real run
would only be stopped by the Python interpreter's own recursion limit). -/
theorem writeFileTree_unbounded_recursion (n : Nat) (path : String) :
    writeFileTree isSelfArchive readSelfArchive n [selfFile] path = none :=
  writeFileTree_selfArchive_aux n path

/-- C7: a backup record whose `resetData` is absent decodes with `resetData`
equal to `data`; `printBackupCommand` prints a record's reset-data section
exactly when its `resetData` is non-empty and differs from `data`; hence a
defaulted record prints no reset-data section. -/
theorem backup_resetData_default :
    (∀ r : BackupRecordRaw, r.resetData = none →
      (decodeBackupRecord r).resetData = (decodeBackupRecord r).data) ∧
    (∀ p : BackupProperty, printsResetSection p = true ↔
      (p.resetData ≠ [] ∧ p.resetData ≠ p.data)) ∧
    (∀ r : BackupRecordRaw, r.resetData = none →
      printsResetSection (decodeBackupRecord r) = false) := by
  refine ⟨?_, ?_, ?_⟩
  · intro r h
    simp [decodeBackupRecord, h]
  · intro p
    simp [printsResetSection, List.isEmpty_iff, bne_iff_ne]
  · intro r h
    simp [printsResetSection, decodeBackupRecord, h]

/-- C7 witness: the two-property scenario — the first record's `resetData`
defaults to its `data` and prints no reset-data section, and the store
decodes to exactly two records in file order. -/
theorem backup_resetData_default_witness :
    (decodeBackupRecord wRaw1).resetData = (decodeBackupRecord wRaw1).data ∧
    printsResetSection (decodeBackupRecord wRaw1) = false ∧
    readBackup [wRaw1, wRaw2] =
      [{ id := 0x1, attr := 0x00, data := [1, 2], resetData := [1, 2] },
       { id := 0x2, attr := 0x80, data := [], resetData := [0xFF] }] :=
  ⟨backup_resetData_default.1 wRaw1 rfl,
   backup_resetData_default.2.2 wRaw1 rfl,
   rfl⟩

/-- C8: the handle trace of `packCommand` invoked with an updater body file
but no updater filesystem file: the `updater_packed.img` handle opened at
fwtool.py line 177 is never released (there is no `with` block and no
`close`), while the trace of a run that does not take that branch is fully
released — refuting the claim that every handle acquired by the operation is
released on every exit path. -/
theorem packCommand_leaks_updater_handle :
    HEvent.hopen "updater_packed.img" ∈ packCommandHandles false true true true ∧
    HEvent.hclose "updater_packed.img" ∉ packCommandHandles false true true true ∧
    releasedAll (packCommandHandles false true true true) = false ∧
    releasedAll (packCommandHandles true false true true) = true := by
  decide

/-- C10: every `UnixFile` the driver constructs through `toUnixFile` is a
regular file with mode `S_IFREG | 0o775`, declared size `-1`, uid 0 and
gid 0, and the `mtime` argument defaults to 0 when none is supplied. -/
theorem toUnixFile_regular_defaults (path : String) (file : Bytes) (mtime : Nat) :
    (toUnixFile path file mtime).mode = (S_IFREG ||| 0o775) ∧
    S_ISREG (toUnixFile path file mtime).mode = true ∧
    S_ISDIR (toUnixFile path file mtime).mode = false ∧
    (toUnixFile path file mtime).size = -1 ∧
    (toUnixFile path file mtime).uid = 0 ∧
    (toUnixFile path file mtime).gid = 0 ∧
    (toUnixFile path file mtime).mtime = mtime ∧
    (toUnixFile path file mtime).contents = file ∧
    toUnixFile path file = toUnixFile path file 0 := by
  refine ⟨rfl, ?_, ?_, rfl, rfl, rfl, rfl, rfl, rfl⟩
  · show S_ISREG (S_IFREG ||| 0o775) = true
    decide
  · show S_ISDIR (S_IFREG ||| 0o775) = false
    decide

end Fwtool
